import Mathlib

/-!
Shallow embedding of the decoding engine (`decoder.py`) and the
vocabulary / batching pipeline (`manager.py`) of the dictionary-attention
translation system, together with theorems settling the frozen claims
about its specification.

Modelling conventions:
* Python machine integers are modelled as `Nat`/`Int` (no overflow is
  relevant anywhere in this code).
* Python exceptions are modelled with `Except PyErr`: code that can raise
  returns `Except PyErr α`.  Loops whose termination Python does not make
  structurally evident carry an explicit fuel argument; exhausting fuel
  yields the artificial error `PyErr.outOfFuel` (unreachable for the fuel
  values used by the top-level entry points).
* Real-valued scores (log-probabilities) are modelled as `ℚ`.  The
  transformer model itself is outside the verified core (the spec treats
  it as an opaque scoring interface), so `model.decode`/`out_embed`
  composed with `log_softmax` is abstracted as a scoring function
  `List ℕ → List ℚ` from a target prefix to per-token log-probabilities.
  (`argmax ∘ log_softmax = argmax` on logits since log-softmax is strictly
  monotone, so this abstraction is faithful for the decoding engine.)
* Python `str` operations used by the code are re-implemented over
  `String.data : List Char` so that every function evaluates by kernel
  reduction.
-/

namespace DictAttention

/-- Python exception kinds that the embedded code can raise.  `outOfFuel` is
an artefact of the fuel-based embedding of loops, not a Python error. -/
inductive PyErr
  | valueError
  | keyError
  | indexError
  | typeError
  | attributeError
  | outOfFuel
deriving DecidableEq

instance {ε α : Type} [DecidableEq ε] [DecidableEq α] : DecidableEq (Except ε α) := by
  intro a b
  cases a <;> cases b
  case ok.ok x y => exact match decEq x y with
    | isTrue h => isTrue (by rw [h])
    | isFalse h => isFalse (by intro hc; cases hc; exact h rfl)
  case error.error x y => exact match decEq x y with
    | isTrue h => isTrue (by rw [h])
    | isFalse h => isFalse (by intro hc; cases hc; exact h rfl)
  all_goals exact isFalse (by intro hc; cases hc)

/-- Effectful map over a list in the `Except` monad (Python list
comprehension whose body may raise). -/
def exMapM {α β : Type} (f : α → Except PyErr β) : List α → Except PyErr (List β)
  | [] => .ok []
  | x :: xs =>
    match f x with
    | .error e => .error e
    | .ok y =>
      match exMapM f xs with
      | .error e => .error e
      | .ok ys => .ok (y :: ys)

/-- Sequencing in the `Except` monad (evaluate, propagate a raised
exception, continue otherwise). -/
def exBind {α β : Type} (x : Except PyErr α) (f : α → Except PyErr β) : Except PyErr β :=
  match x with
  | .error e => .error e
  | .ok a => f a

/-- Inversion of a successful `exBind`. -/
theorem exBind_ok {α β : Type} {x : Except PyErr α} {f : α → Except PyErr β} {b : β}
    (h : exBind x f = .ok b) : ∃ a, x = .ok a ∧ f a = .ok b := by
  cases x with
  | error e => simp [exBind] at h
  | ok a => exact ⟨a, rfl, h⟩

/-- Total list lookup (`l[n]` guarded): our own copy of `List.get?`,
kept local so its specification lemmas are self-contained. -/
def listGet? {α : Type} : List α → ℕ → Option α
  | [], _ => none
  | x :: _, 0 => some x
  | _ :: xs, n+1 => listGet? xs n

/-- Python `list.index(x)`: index of the first occurrence, `none` when the
element is absent (where Python raises `ValueError`). -/
def findIdx0 : List ℕ → ℕ → Option ℕ
  | [], _ => none
  | y :: ys, x => if y = x then some 0 else (findIdx0 ys x).map (· + 1)

/-- Split a character list at every occurrence of `sep` (Python
`str.split(sep)` keeps empty chunks). -/
def splitOnChar (sep : Char) : List Char → List (List Char)
  | [] => [[]]
  | c :: rest =>
    let r := splitOnChar sep rest
    if c = sep then [] :: r
    else match r with
      | [] => [[c]]
      | g :: gs => (c :: g) :: gs

/-- Python `line.split('\t')`. -/
def pySplitTab (s : String) : List String :=
  (splitOnChar '\t' s.data).map String.mk

/-- Split at whitespace keeping empty chunks (helper for `pySplitWs`). -/
def splitWsChunks : List Char → List (List Char)
  | [] => [[]]
  | c :: rest =>
    let r := splitWsChunks rest
    if c.isWhitespace then [] :: r
    else match r with
      | [] => [[c]]
      | g :: gs => (c :: g) :: gs

/-- Python `str.split()` (no argument): split on runs of whitespace and
drop empty fields. -/
def pySplitWs (s : String) : List String :=
  ((splitWsChunks s.data).filter (· ≠ [])).map String.mk

/-- Python `s.endswith('@@')`. -/
def endsWithAtAt (s : String) : Bool :=
  match s.data.reverse with
  | '@' :: '@' :: _ => true
  | _ => false

/-- Python `s.rstrip('@@')`: `rstrip` takes a character *set*, so this
strips every trailing `'@'`. -/
def rstripAts (s : String) : String :=
  String.mk ((s.data.reverse.dropWhile (· = '@')).reverse)

/-- Lookup in an insertion-ordered association list (Python `dict`
subscript read). -/
def dictGet : List (String × ℕ) → String → Option ℕ
  | [], _ => none
  | (k, v) :: rest, w => if k = w then some v else dictGet rest w

/-- Python `dict` subscript assignment: overwrite in place when the key
exists, append otherwise. -/
def dictSet : List (String × ℕ) → String → ℕ → List (String × ℕ)
  | [], k, v => [(k, v)]
  | (a, b) :: rest, k, v =>
    if a = k then (k, v) :: rest else (a, b) :: dictSet rest k v

/-- `Vocab` of `manager.py`: `num_to_word` (id → token), `word_to_num`
(token → id, an insertion-ordered dict), and the lazily set
`_decoding_size` (`None` before `_from_file` runs). -/
structure Vocab where
  numToWord : List String
  wordToNum : List (String × ℕ)
  decodingSize : Option ℤ
deriving DecidableEq

/-- `Vocab.size()` (no `decoding` flag): `len(self.num_to_word)`. -/
def Vocab.size (v : Vocab) : ℕ := v.numToWord.length

/-- `Vocab.add`: `self.word_to_num[word] = self.size()` never raises
`ValueError`, so the `else` branch always appends to `num_to_word`.
Re-adding an existing word therefore overwrites its id and appends a
duplicate entry. -/
def Vocab.add (v : Vocab) (word : String) : Vocab :=
  { v with
    wordToNum := dictSet v.wordToNum word v.size
    numToWord := v.numToWord ++ [word] }

/-- The `Vocab.UNK` property.  The source wraps the dict lookup in
`try/except ValueError`, but a missing key raises `KeyError`, which that
handler does not catch: when `'<UNK>'` is absent the property raises
`KeyError` and the lazy `self.add('<UNK>')` path is dead code. -/
def Vocab.UNK (v : Vocab) : Except PyErr ℕ :=
  match dictGet v.wordToNum "<UNK>" with
  | some n => .ok n
  | none => .error .keyError

/-- The `Vocab.BOS` property (same dead `except ValueError` handler as
`UNK`). -/
def Vocab.BOS (v : Vocab) : Except PyErr ℕ :=
  match dictGet v.wordToNum "<BOS>" with
  | some n => .ok n
  | none => .error .keyError

/-- The `Vocab.EOS` property (same dead `except ValueError` handler as
`UNK`). -/
def Vocab.EOS (v : Vocab) : Except PyErr ℕ :=
  match dictGet v.wordToNum "<EOS>" with
  | some n => .ok n
  | none => .error .keyError

/-- The `Vocab.PAD` property (same dead `except ValueError` handler as
`UNK`). -/
def Vocab.PAD (v : Vocab) : Except PyErr ℕ :=
  match dictGet v.wordToNum "<PAD>" with
  | some n => .ok n
  | none => .error .keyError

/-- `Vocab.numberize(*words)`: known words map to their id, unknown words
to the `UNK` property (which itself raises `KeyError` when `'<UNK>'` is
absent).  The `as_list` flag only chooses list vs tensor packaging of the
same numbers and is dropped. -/
def Vocab.numberize (v : Vocab) (words : List String) : Except PyErr (List ℕ) :=
  exMapM (fun w =>
    match dictGet v.wordToNum w with
    | some n => .ok n
    | none => v.UNK) words

/-- `Vocab.denumberize(*nums, verbatim)`: with `verbatim` map ids straight
through; otherwise trim everything up to and including the first `BOS` and
everything from the first `EOS` on (`list.index` raising `ValueError` is
caught and leaves that end untrimmed), then map through `num_to_word`
(an out-of-range id raises `IndexError`). -/
def Vocab.denumberize (v : Vocab) (nums : List ℕ) (verbatim : Bool) : Except PyErr (List String) :=
  if verbatim then
    exMapM (fun n =>
      match listGet? v.numToWord n with
      | some w => .ok w
      | none => .error .indexError) nums
  else
    match v.BOS with
    | .error e => .error e
    | .ok b =>
      let start := match findIdx0 nums b with
        | some j => j + 1
        | none => 0
      match v.EOS with
      | .error e => .error e
      | .ok eo =>
        let stop := match findIdx0 nums eo with
          | some j => j
          | none => nums.length
        exMapM (fun n =>
          match listGet? v.numToWord n with
          | some w => .ok w
          | none => .error .indexError) ((nums.drop start).take (stop - start))

/-- `Vocab.size(decoding=True)`: returns `_decoding_size` (which is `None`
for a vocabulary not built from a file). -/
def Vocab.sizeDecoding (v : Vocab) : Option ℤ := v.decodingSize

/-- `Vocab._from_file`.  The header `#<start>:<end>` is modelled by the two
parsed integers `start` and `end'`; `lines` are the remaining lines of the
file (each contributes its first whitespace-delimited field; a blank line
raises `IndexError` from `line.split()[0]`).  Note the literal transcription
of `decoding_size += i + 1 if i else 0`: when the first padding loop runs
exactly once its loop variable `i` is `0`, which is falsy, so the added
padding token is not counted. -/
def Vocab.fromFile (start end' : ℤ) (lines : List String) : Except PyErr Vocab :=
  let ds := end' - start
  let k := ((8 : ℤ) - ds % 8).toNat
  let v := (List.range k).foldl (fun (v : Vocab) i => v.add ("<PAD " ++ toString i ++ ">")) ⟨[], [], none⟩
  let i := k - 1
  let ds := ds + (if i ≠ 0 then (i : ℤ) + 1 else 0)
  match exMapM (fun line =>
      match pySplitWs line with
      | [] => .error .indexError
      | w :: _ => .ok w) lines with
  | .error e => .error e
  | .ok ws =>
    let v := ws.foldl (fun (v : Vocab) w => v.add w) v
    let k2 := 8 - v.size % 8
    let v := (List.range k2).foldl (fun (v : Vocab) j => v.add ("<PAD " ++ toString (i + j) ++ ">")) v
    .ok { v with decodingSize := some ds }

/-! ## Decoding engine (`decoder.py`)

The scoring interface is abstracted as `score : List ℕ → List ℚ`, mapping
the target prefix decoded so far to the log-probabilities over the
vocabulary (the composition of `model.decode`, `model.out_embed` and
`log_softmax`; the source encodings are baked into `score`).  Since
log-softmax is strictly monotone, taking `argmax` of `score`'s output is
exactly the source's `logits.log_softmax(dim=-1).argmax(dim=-1)`. -/

/-- `triu_mask(size)` of `decoder.py`: entry `(r, c)` of the causal mask is
`True` iff `c ≤ r` (the leading broadcast dimension of the `[1, n, n]`
tensor is dropped). -/
def triuMask (n : ℕ) : List (List Bool) :=
  (List.range n).map fun r => (List.range n).map fun c => decide (c ≤ r)

/-- First index of the maximum of a list (`torch.argmax` returns the first
maximal index); helper carrying the running best value and index. -/
def argmaxAux : List ℚ → ℕ → ℚ → ℕ → ℕ
  | [], _, _, bi => bi
  | x :: xs, i, bv, bi =>
    if bv < x then argmaxAux xs (i+1) x i else argmaxAux xs (i+1) bv bi

/-- `tensor.argmax()`: index of the first maximal entry (0 on the empty
list, where torch would raise). -/
def argmax : List ℚ → ℕ
  | [] => 0
  | x :: xs => argmaxAux xs 1 x 0

/-- The loop of `greedy_search`: at step `i` append the argmax token at
position `i` and stop on `EOS`.  The fuel argument makes the recursion
structural; `greedySearch` supplies `maxLength`, which is enough fuel for
the whole `for i in range(1, max_length)` loop, so the fuel-0 branch is
unreachable from `greedySearch`. -/
def greedyLoop (score : List ℕ → List ℚ) (eos maxLength : ℕ) : ℕ → ℕ → List ℕ → List ℕ
  | 0, _, path => path
  | fuel+1, i, path =>
    if i < maxLength then
      let t := argmax (score (path.take i))
      let path' := path.set i t
      if t = eos then path' else greedyLoop score eos maxLength fuel (i+1) path'
    else path

/-- `greedy_search` of `decoder.py`: the path buffer is initialized to
`vocab.BOS` in every position (`torch.full((1, max_length), vocab.BOS)`),
then positions `1, ..., max_length - 1` are filled greedily until `EOS`. -/
def greedySearch (score : List ℕ → List ℚ) (bos eos : ℕ) (maxLength : ℕ) : List ℕ :=
  greedyLoop score eos maxLength maxLength 1 (List.replicate maxLength bos)

/-- The dynamic-widening update of `beam_search`
(`active[~active] |= probs[~active] < topv.max() / i`): an already active
slot stays active, and an inactive slot becomes active exactly when its
stored score is strictly below the threshold `thr`. -/
def reactivate (active : List Bool) (probs : List ℚ) (thr : ℚ) : List Bool :=
  List.zipWith (fun a p => a || decide (p < thr)) active probs

/-- Number of `true` entries of a boolean mask
(`active.count_nonzero()`). -/
def countTrue (mask : List Bool) : ℕ := mask.count true

/-- Indices at which a boolean mask is `true`, in increasing order. -/
def truePositions (mask : List Bool) : List ℕ :=
  mask.enum.filterMap fun p => if p.2 then some p.1 else none

/-- Boolean-mask indexing `xs[mask]` (read). -/
def filterByMask {α : Type} (xs : List α) (mask : List Bool) : List α :=
  (xs.zip mask).filterMap fun p => if p.2 then some p.1 else none

/-- Boolean-mask indexing `xs[mask] = vals` (write): the positions at which
`mask` holds are overwritten, in order, by `vals`. -/
def scatterByMask {α : Type} (xs : List α) (mask : List Bool) (vals : List α) : List α :=
  ((truePositions mask).zip vals).foldl (fun acc pv => acc.set pv.1 pv.2) xs

/-- Stable insertion of a `(value, index)` candidate into a list sorted by
descending value, ties broken by ascending index (the deterministic
tie-break of the flattened `torch.topk`). -/
def insertDesc (x : ℚ × ℕ) : List (ℚ × ℕ) → List (ℚ × ℕ)
  | [] => [x]
  | y :: ys => if y.1 < x.1 ∨ (y.1 = x.1 ∧ x.2 ≤ y.2) then x :: y :: ys else y :: insertDesc x ys

/-- `torch.topk(flat, k)` on a flattened score vector: the `k` largest
entries with their flat indices, sorted by descending value. -/
def topkDesc (flat : List ℚ) (k : ℕ) : List (ℚ × ℕ) :=
  ((flat.enum.map fun p => (p.2, p.1)).foldr insertDesc []).take k

/-- Beam-search state: `paths`/`probs`/`active` all have `init_size` slots;
`beamSize` is the current number of active slots. -/
structure BeamState where
  paths : List (List ℕ)
  probs : List ℚ
  active : List Bool
  beamSize : ℕ

/-- One iteration of the `while` loop of `beam_search` at step `i`:
score the active paths, take the flattened top-k, apply the
dynamic-widening `reactivate` update when the beam has shrunk (recomputing
the top-k if the active count grew), reassign paths/probs through the
parent indices `topi // V` and chosen tokens `topi % V`, then
length-normalize and deactivate newly terminated paths.  Note that the
parent indices (computed over the rows of the *pre-reactivation* active
set) are applied to `paths[active]` filtered by the *post-reactivation*
mask, exactly as in the source. -/
def beamStep (score : List ℕ → List ℚ) (V eos initSize : ℕ) (i : ℕ) (s : BeamState) : BeamState :=
  let activePaths := filterByMask s.paths s.active
  let activeProbs := filterByMask s.probs s.active
  let rows := (activePaths.zip activeProbs).map fun pe => (score (pe.1.take i)).map (fun q => pe.2 + q)
  let flat := if i = 1 then rows.headD [] else rows.flatten
  let top := topkDesc flat s.beamSize
  let topvMax := (top.headD (0, 0)).1
  let wide :=
    if s.beamSize < initSize then
      let act := reactivate s.active s.probs (topvMax / (i : ℚ))
      let cnt := countTrue act
      if s.beamSize < cnt then (act, cnt, topkDesc flat cnt) else (act, s.beamSize, top)
    else (s.active, s.beamSize, top)
  let active2 := wide.1
  let topv := wide.2.2.map Prod.fst
  let topi := wide.2.2.map Prod.snd
  let filteredOld := filterByMask s.paths active2
  let parents := topi.map fun t => filteredOld.getD (t / V) []
  let paths1 := scatterByMask s.paths active2 parents
  let newRows := ((filterByMask paths1 active2).zip (topi.map fun t => t % V)).map fun pc => pc.1.set i pc.2
  let paths2 := scatterByMask paths1 active2 newRows
  let probs1 := scatterByMask s.probs active2 topv
  let terminated := paths2.map fun p => decide (p.getD i 0 = eos)
  let probs2 := (probs1.zip terminated).map fun pt => if pt.2 then pt.1 / (i : ℚ) else pt.1
  let active3 := (active2.zip terminated).map fun at2 => at2.1 && !at2.2
  ⟨paths2, probs2, active3, countTrue active3⟩

/-- The `while (i := i + 1) < max_length and beam_size > 0` loop of
`beam_search`; fuel-structural, `beamSearch` supplies `maxLength` fuel
which covers every iteration. -/
def beamLoop (score : List ℕ → List ℚ) (V eos initSize maxLength : ℕ) : ℕ → ℕ → BeamState → BeamState
  | 0, _, s => s
  | fuel+1, i, s =>
    if i < maxLength ∧ 0 < s.beamSize then
      beamLoop score V eos initSize maxLength fuel (i+1) (beamStep score V eos initSize i s)
    else s

/-- `beam_search` of `decoder.py`: all `beam_size` slots start at `BOS`
with score 0 and active; the result is the path with the highest stored
score (first maximum on ties, as `torch.argmax`). -/
def beamSearch (score : List ℕ → List ℚ) (V bos eos : ℕ) (beamSize maxLength : ℕ) : List ℕ :=
  let s0 : BeamState :=
    ⟨List.replicate beamSize (List.replicate maxLength bos),
     List.replicate beamSize 0, List.replicate beamSize true, beamSize⟩
  let s := beamLoop score V eos beamSize maxLength maxLength 1 s0
  s.paths.getD (argmax s.probs) []

/-! ## `Batch` (`manager.py`)

Tensors are modelled as nested lists with the shape bookkeeping made
implicit; broadcast dimensions of size 1 are dropped.  The
`[2, B, Ls, Ls]` dictionary-attention mask is modelled as a total function
`layer → example → row → column → ℚ` built by replaying the source's
sequential in-place fills. -/

/-- A mini-batch: `src_nums [B, Ls]`, `tgt_nums [B, Lt]`, the stored
per-example `(lemma spans, sense spans)` iterator contents, and
`ignore_index` (`None` or the `<PAD>` id).  Python stores
`zip(lemmas, senses)` — a one-shot iterator — in `_dict_data`; here
`dictData` holds the not-yet-consumed items, and `dictMaskRead` models the
consuming read. -/
structure Batch where
  srcNums : List (List ℕ)
  tgtNums : List (List ℕ)
  dictData : List (List (ℕ × ℕ) × List (ℕ × ℕ))
  ignoreIndex : Option ℕ
deriving DecidableEq

/-- Python truthiness test `not self.ignore_index`: true for `None` and for
`0`. -/
def Batch.isFalsy : Option ℕ → Bool
  | none => true
  | some 0 => true
  | some (_+1) => false

/-- `Batch.src_mask`: `None` when `ignore_index` is falsy, otherwise the
padding mask `src_nums != ignore_index` (the broadcast `unsqueeze(-2)`
dimension is dropped). -/
def Batch.srcMask (b : Batch) : Option (List (List Bool)) :=
  if Batch.isFalsy b.ignoreIndex then none
  else some (b.srcNums.map fun row => row.map fun t => decide (t ≠ b.ignoreIndex.getD 0))

/-- The padded target length `Lt` (the common length of the rows of
`tgt_nums`; read off the first row as tensors have uniform shape). -/
def Batch.tgtWidth (b : Batch) : ℕ := (b.tgtNums.headD []).length

/-- `Batch.tgt_mask`: with falsy `ignore_index`, the pure causal
`triu_mask` of size `Lt - 1` (a single broadcast matrix); otherwise, per
batch row, the conjunction of the padding mask of `tgt_nums[:, :-1]` with
the causal mask. -/
def Batch.tgtMask (b : Batch) : List (List (List Bool)) :=
  if Batch.isFalsy b.ignoreIndex then [triuMask (b.tgtWidth - 1)]
  else b.tgtNums.map fun row =>
    (List.range (b.tgtWidth - 1)).map fun r =>
      (List.range (b.tgtWidth - 1)).map fun c =>
        decide (row.dropLast.getD c 0 ≠ b.ignoreIndex.getD 0) && decide (c ≤ r)

/-- `Batch.num_tokens`: with falsy `ignore_index`, `tgt_nums[:, 1:].sum()`
— the arithmetic sum of the id values; otherwise the count of entries
different from `ignore_index` in `tgt_nums[:, 1:]`. -/
def Batch.numTokens (b : Batch) : ℕ :=
  if Batch.isFalsy b.ignoreIndex then (b.tgtNums.map fun r => (r.drop 1).sum).sum
  else (b.tgtNums.map fun r => (r.drop 1).countP fun t => t ≠ b.ignoreIndex.getD 0).sum

/-- The all-zero `[2, B, Ls, Ls]` dictionary mask
(`torch.zeros(...).repeat(...)`), as a total entry function. -/
def zeroDictMask : ℕ → ℕ → ℕ → ℕ → ℚ := fun _ _ _ _ => 0

/-- The four sequential in-place fills of `Batch.dict_mask` for one
`(lemma span, sense span)` pair `((a, b), (c, d))` of example `i`:
`dict_mask[0, i, :, c:d] = 1`, `dict_mask[0, i, a:b, c:d] = 0`,
`dict_mask[1, i, c:d, :] = 1`, `dict_mask[1, i, c:d, c:d] = 0` (later
writes win). -/
def applyDictPair (i : ℕ) (lemSpan senSpan : ℕ × ℕ) (m : ℕ → ℕ → ℕ → ℕ → ℚ) :
    ℕ → ℕ → ℕ → ℕ → ℚ :=
  let a := lemSpan.1
  let b := lemSpan.2
  let c := senSpan.1
  let d := senSpan.2
  let m1 := fun l e r cc => if l = 0 ∧ e = i ∧ c ≤ cc ∧ cc < d then 1 else m l e r cc
  let m2 := fun l e r cc =>
    if l = 0 ∧ e = i ∧ a ≤ r ∧ r < b ∧ c ≤ cc ∧ cc < d then 0 else m1 l e r cc
  let m3 := fun l e r cc => if l = 1 ∧ e = i ∧ c ≤ r ∧ r < d then 1 else m2 l e r cc
  fun l e r cc =>
    if l = 1 ∧ e = i ∧ c ≤ r ∧ r < d ∧ c ≤ cc ∧ cc < d then 0 else m3 l e r cc

/-- The value computed by `Batch.dict_mask` from the (remaining) dictionary
data: start from zeros and replay the in-place fills of every
`(lemmas, senses)` pair of every enumerated example. -/
def buildDictMask (dictData : List (List (ℕ × ℕ) × List (ℕ × ℕ))) : ℕ → ℕ → ℕ → ℕ → ℚ :=
  dictData.enum.foldl
    (fun m ip => (ip.2.1.zip ip.2.2).foldl (fun m pr => applyDictPair ip.1 pr.1 pr.2 m) m)
    zeroDictMask

/-- Reading the `Batch.dict_mask` property.  It sizes the zero tensor from
`self.src_mask` (raising `AttributeError` on `None.size()` when
`ignore_index` is falsy), iterates the stored `zip` iterator — consuming
it, so the updated `Batch` has no dictionary data left — and returns the
filled mask. -/
def Batch.dictMaskRead (b : Batch) : Except PyErr ((ℕ → ℕ → ℕ → ℕ → ℚ) × Batch) :=
  if Batch.isFalsy b.ignoreIndex then .error .attributeError
  else .ok (buildDictMask b.dictData, { b with dictData := [] })

/-! ## `Manager.batch_data` (`manager.py`)

The configuration options injected from `config` and the dictionary /
frequency tables loaded in `Manager.__init__` are passed explicitly. -/

/-- The configuration options `batch_data` reads (`max_length`,
`batch_size`, `freq_limit`, `max_senses`). -/
structure Config where
  maxLength : ℕ
  batchSize : ℕ
  freqLimit : ℤ
  maxSenses : ℕ

/-- One accepted example before bucketing: the tuple
`(src_words, tgt_words, lemmas, senses)` appended to `unbatched`. -/
structure Example where
  src : List String
  tgt : List String
  lemmas : List (ℕ × ℕ)
  senses : List (ℕ × ℕ)
deriving DecidableEq

/-- The inner sub-word-joining loop of the lemma scan
(`while (i := i + 1) < src_len and src_words[i].endswith('@@')`), started
just after a token ending in `'@@'`; on exit Python reads `src_words[i]`,
which is in range when `i < src_len`, but when every remaining original
token carried the marker `i = src_len` indexes into the *grown* source
(the first injected sense token) or raises `IndexError` if nothing was
appended yet.  `fuel ≥ srcLen + 1` covers the loop. -/
def collectLemma (src : List String) (srcLen : ℕ) : ℕ → String → ℕ → Except PyErr (String × ℕ)
  | 0, _, _ => .error .outOfFuel
  | fuel+1, lem, i =>
    if i < srcLen && endsWithAtAt (src.getD i "") then
      collectLemma src srcLen fuel (lem ++ rstripAts (src.getD i "")) (i+1)
    else
      match listGet? src i with
      | some tok => .ok (lem ++ tok, i)
      | none => .error .indexError

/-- The outer lemma scan of `batch_data` (`while (i := i + 1) < src_len`):
reconstruct each sub-word-joined lemma; for a lemma present in both the
frequency table and the dictionary with frequency `≤ freq_limit`, record
`(lemma_start, i + 1)` and `(len(src_words), ... + len(sense))`, then stop
scanning entirely if appending the (at most `max_senses`) sense tokens
would push the source past `max_length` (dropping the just-recorded pair),
or extend `src_words` with them.  `srcLen` is the *original* source length,
fixed before the loop.  `fuel ≥ srcLen + 1` covers the loop because `i`
strictly increases. -/
def scanSrc (freq : String → Option ℤ) (dict : String → Option (List String))
    (freqLimit : ℤ) (maxSenses maxLength srcLen : ℕ) :
    ℕ → ℕ → List String → List (ℕ × ℕ) → List (ℕ × ℕ) →
    Except PyErr (List String × List (ℕ × ℕ) × List (ℕ × ℕ))
  | 0, _, _, _, _ => .error .outOfFuel
  | fuel+1, i, src, lems, sens =>
    if i < srcLen then
      let tok := src.getD i ""
      let collected : Except PyErr (String × ℕ) :=
        if endsWithAtAt tok then collectLemma src srcLen (srcLen+1) (rstripAts tok) (i+1)
        else .ok (tok, i)
      match collected with
      | .error e => .error e
      | .ok (lem, i2) =>
        match freq lem, dict lem with
        | some fv, some senseList =>
          if fv ≤ freqLimit then
            let senseStart := src.length
            let sense := senseList.take maxSenses
            if maxLength < src.length + sense.length then .ok (src, lems, sens)
            else
              scanSrc freq dict freqLimit maxSenses maxLength srcLen fuel (i2+1)
                (src ++ sense) (lems ++ [(i, i2 + 1)]) (sens ++ [(senseStart, senseStart + sense.length)])
          else scanSrc freq dict freqLimit maxSenses maxLength srcLen fuel (i2+1) src lems sens
        | _, _ => scanSrc freq dict freqLimit maxSenses maxLength srcLen fuel (i2+1) src lems sens
    else .ok (src, lems, sens)

/-- Processing of one input line of `batch_data`:
`src_line, tgt_line = line.split('\t')` raises `ValueError` unless the
split yields exactly two fields; a line with an empty side is skipped
(`.ok none`), as is a line whose wrapped source or target exceeds
`max_length`; otherwise the lemma scan runs and the example is accepted. -/
def processLine (cfg : Config) (freq : String → Option ℤ)
    (dict : String → Option (List String)) (line : String) :
    Except PyErr (Option Example) :=
  match pySplitTab line with
  | [srcLine, tgtLine] =>
    if srcLine = "" ∨ tgtLine = "" then .ok none
    else
      let srcWords := ["<BOS>"] ++ pySplitWs srcLine ++ ["<EOS>"]
      let tgtWords := ["<BOS>"] ++ pySplitWs tgtLine ++ ["<EOS>"]
      if cfg.maxLength < srcWords.length then .ok none
      else if cfg.maxLength < tgtWords.length then .ok none
      else
        match scanSrc freq dict cfg.freqLimit cfg.maxSenses cfg.maxLength srcWords.length
            (srcWords.length + 1) 0 srcWords [] [] with
        | .error e => .error e
        | .ok (src2, lems, sens) => .ok (some ⟨src2, tgtWords, lems, sens⟩)
  | _ => .error .valueError

/-- The line loop of `batch_data`, accumulating accepted examples into
`unbatched`. -/
def readExamples (cfg : Config) (freq : String → Option ℤ)
    (dict : String → Option (List String)) :
    List String → List Example → Except PyErr (List Example)
  | [], acc => .ok acc
  | line :: rest, acc =>
    match processLine cfg freq dict line with
    | .error e => .error e
    | .ok none => readExamples cfg freq dict rest acc
    | .ok (some ex) => readExamples cfg freq dict rest (acc ++ [ex])

/-- Comparison used by the stable descending sort
`unbatched.sort(key=lambda x: (len(x[0]), len(x[1])), reverse=True)`:
`x` may stay before `y` iff `key x ≥ key y` lexicographically. -/
def keyGE (x y : Example) : Bool :=
  decide (y.src.length < x.src.length) ||
    (decide (x.src.length = y.src.length) && decide (y.tgt.length ≤ x.tgt.length))

/-- Stable insertion for the descending sort: an element is placed before
the first element it is `keyGE`-greater-or-equal to, so that ties keep the
original order (Python's `list.sort` is stable). -/
def insEx (x : Example) : List Example → List Example
  | [] => [x]
  | y :: ys => if keyGE x y then x :: y :: ys else y :: insEx x ys

/-- The stable descending sort of `unbatched`. -/
def sortExamples (exs : List Example) : List Example := exs.foldr insEx []

/-- `math.ceil(n / 8) * 8` for a natural `n`. -/
def ceil8 (n : ℕ) : ℕ := (n + 7) / 8 * 8

/-- `nn.functional.pad(t, (0, k), value=v)` on a 1-D tensor: appends `k`
copies of `v` when `k ≥ 0` and truncates `-k` entries from the end when
`k < 0`. -/
def padPy (xs : List ℕ) (k : ℤ) (v : ℕ) : List ℕ :=
  if 0 ≤ k then xs ++ List.replicate k.toNat v else xs.take (xs.length - (-k).toNat)

/-- One padded row of a bucket:
`nn.functional.pad(vocab.numberize(*words), (0, width - len(words)), value=vocab.PAD)`. -/
def padRow (v : Vocab) (width : ℕ) (words : List String) : Except PyErr (List ℕ) :=
  match v.numberize words with
  | .error e => .error e
  | .ok ns =>
    match v.PAD with
    | .error e => .error e
    | .ok p => .ok (padPy ns ((width : ℤ) - ns.length) p)

/-- The inner `while True` sizing loop of the bucketing phase: compute
`batch_size = batch_size_budget // (max(src_len, tgt_len) * 8) * 8`,
re-measure the actual maximal lengths of that slice (an empty slice makes
the 4-tuple unpacking of `zip(*[])` raise `ValueError`), and stop when the
measured maxima no longer exceed the lengths used for sizing.  (Every
accepted example has length ≥ 2 — it is `<BOS>`/`<EOS>`-wrapped — so on
inputs reachable from `batch_data` the divisor never vanishes.) -/
def sizeBucket (budget : ℕ) (unbatched : List Example) (i : ℕ) :
    ℕ → ℕ → ℕ → Except PyErr (ℕ × ℕ × ℕ)
  | 0, _, _ => .error .outOfFuel
  | fuel+1, srcLen, tgtLen =>
    let bs := budget / (max srcLen tgtLen * 8) * 8
    let slice := (unbatched.drop i).take bs
    if slice.isEmpty then .error .valueError
    else
      let mS := slice.foldl (fun m ex => max m ex.src.length) 0
      let mT := slice.foldl (fun m ex => max m ex.tgt.length) 0
      if mS ≤ srcLen ∧ mT ≤ tgtLen then .ok (bs, mS, mT)
      else sizeBucket budget unbatched i fuel mS mT

/-- Materialization of one bucket: round the measured maxima up to
multiples of 8, numberize and pad every source/target row, clamp target
ids `≥ vocab.size(decoding=True)` to `UNK` (comparison with a `None`
decoding size is a `TypeError`), and build the `Batch` with
`zip(lemmas, senses)` as dictionary data and `vocab.PAD` as
`ignore_index`. -/
def mkBucket (v : Vocab) (slice : List Example) (mS mT : ℕ) : Except PyErr Batch :=
  exBind (exMapM (fun ex => padRow v (ceil8 mS) ex.src) slice) fun srcNums =>
  exBind (exMapM (fun ex => padRow v (ceil8 mT) ex.tgt) slice) fun tgtNums0 =>
  exBind (match v.sizeDecoding with
    | none => .error .typeError
    | some d => .ok d) fun d =>
  exBind v.UNK fun unk =>
  exBind v.PAD fun pad =>
  .ok ⟨srcNums,
    tgtNums0.map fun row => row.map fun (t : ℕ) => if d ≤ (t : ℤ) then unk else t,
    slice.map (fun ex => (ex.lemmas, ex.senses)), some pad⟩

/-- The outer bucketing loop `while (i := i + batch_size) < len(unbatched)`
of `batch_data`.  `innerFuel` is the fuel handed to each `sizeBucket` run;
the outer fuel decreases once per produced bucket. -/
def bucketLoop (cfg : Config) (v : Vocab) (unbatched : List Example) (innerFuel : ℕ) :
    ℕ → ℕ → ℕ → List Batch → Except PyErr (List Batch)
  | 0, _, _, _ => .error .outOfFuel
  | fuel+1, i, bsz, acc =>
    let i2 := i + bsz
    if i2 < unbatched.length then
      let ex := unbatched.getD i2 ⟨[], [], [], []⟩
      exBind (sizeBucket cfg.batchSize unbatched i2 innerFuel ex.src.length ex.tgt.length)
        fun szs =>
      exBind (mkBucket v ((unbatched.drop i2).take szs.1) szs.2.1 szs.2.2) fun b =>
      bucketLoop cfg v unbatched innerFuel fuel i2 szs.1 (acc ++ [b])
    else .ok acc

/-- `Manager.batch_data`: read and filter the lines, sort the accepted
examples by descending `(source length, target length)`, and run the
bucketing loop.  `fuel` bounds both loops of the bucketing phase; any
`fuel` large enough (e.g. `lines.length + cfg.maxLength + 2`) reproduces
the source behaviour exactly. -/
def batchData (fuel : ℕ) (cfg : Config) (freq : String → Option ℤ)
    (dict : String → Option (List String)) (v : Vocab) (lines : List String) :
    Except PyErr (List Batch) :=
  exBind (readExamples cfg freq dict lines []) fun exs =>
  bucketLoop cfg v (sortExamples exs) fuel fuel 0 0 []

/-! ## Concrete fixtures used by the claim theorems -/

/-- A configuration with `max_length = 10`, `batch_size = 64`,
`freq_limit = 0`, `max_senses = 2`. -/
def cfg1 : Config := ⟨10, 64, 0, 2⟩

/-- An eight-token vocabulary (ids `0..7`) with all four control tokens and
`decoding_size = 8`. -/
def voc8 : Vocab :=
  ⟨["<PAD>", "<BOS>", "<EOS>", "<UNK>", "a", "b", "c", "d"],
   [("<PAD>", 0), ("<BOS>", 1), ("<EOS>", 2), ("<UNK>", 3), ("a", 4), ("b", 5), ("c", 6), ("d", 7)],
   some 8⟩

/-- The four-token vocabulary `{<PAD>:0, <BOS>:1, <EOS>:2, a:3}`. -/
def voc4 : Vocab :=
  ⟨["<PAD>", "<BOS>", "<EOS>", "a"],
   [("<PAD>", 0), ("<BOS>", 1), ("<EOS>", 2), ("a", 3)], none⟩

/-- The deterministic scoring function of claim C2 over the vocabulary
`{<PAD>:0, <BOS>:1, <EOS>:2, a:3, b:4}`: predict `a` after the length-1
prefix `[<BOS>]`, `b` after length 2, and `<EOS>` afterwards. -/
def abScore : List ℕ → List ℚ := fun p =>
  if p.length = 1 then [0, 0, 0, 1, 0]
  else if p.length = 2 then [0, 0, 0, 0, 1]
  else [0, 0, 1, 0, 0]

/-- The claim-C2 scoring function as seen from an arbitrary source: the
model's source encodings are part of the abstract scorer, and this scorer
ignores them. -/
def abScoreOf {σ : Type} (_src : σ) : List ℕ → List ℚ := abScore

/-! ## Claim theorems -/

/-- C4: entirely contrary to the claimed lazy creation, reading any of the
four control-token properties on a `Vocab` that lacks the token raises:
the dict lookup raises `KeyError`, which the `except ValueError` handler
around it never catches, so the `self.add(...)` branch is dead.  This
evaluates the code at the failing input (an empty vocabulary). -/
theorem c4_control_token_read_raises :
    Vocab.UNK ⟨[], [], none⟩ = .error .keyError ∧
    Vocab.BOS ⟨[], [], none⟩ = .error .keyError ∧
    Vocab.EOS ⟨[], [], none⟩ = .error .keyError ∧
    Vocab.PAD ⟨[], [], none⟩ = .error .keyError :=
  ⟨rfl, rfl, rfl, rfl⟩

/-- C5: evaluating `Vocab._from_file` on a header whose id range has
`end - start = 7` (≡ 7 mod 8) yields `decoding_size = 7`, not a multiple
of 8: the single padding token `<PAD 0>` is added but
`decoding_size += i + 1 if i else 0` adds nothing because the loop
variable `i` is `0`. -/
theorem c5_decoding_size_seven :
    (Vocab.fromFile 0 7 []).map (fun v => v.decodingSize) = .ok (some 7) ∧ ¬ ((7 : ℤ) % 8 = 0) :=
  ⟨rfl, by decide⟩

/-- C1 (counterexample): the claim says an inactive slot is re-activated
exactly when its stored score *exceeds* the threshold.  On the code
(`active[~active] |= probs[~active] < topv.max() / i`) the comparison runs
the other way: here an inactive slot whose stored score `0` does *not*
exceed the threshold `1` is nevertheless re-activated. -/
theorem c1_counterexample :
    reactivate [false] [(0 : ℚ)] 1 = [true] ∧ ¬ ((0 : ℚ) > 1) :=
  ⟨by decide, by norm_num⟩

/-- Entry `j` of `zipWith` through `getD`, for an in-range index. -/
theorem getD_zipWith {α β γ : Type} (f : α → β → γ) (as : List α) (bs : List β)
    (j : ℕ) (da : α) (db : β) (d : γ) (ha : j < as.length) (hb : j < bs.length) :
    (List.zipWith f as bs).getD j d = f (as.getD j da) (bs.getD j db) := by
  induction as generalizing bs j with
  | nil => simp at ha
  | cons a as ih =>
    cases bs with
    | nil => simp at hb
    | cons b bs =>
      cases j with
      | zero => simp
      | succ j =>
        simp only [List.zipWith_cons_cons, List.getD_cons_succ]
        exact ih bs j (by simpa using ha) (by simpa using hb)

/-- C1 (amended): in `beam_search`, at a step `i` at which the beam has
previously shrunk below its initial size, an inactive slot is re-activated
exactly when its stored score is strictly *less than*
`(max selected candidate score) / i`; a slot whose stored score is `≥` the
threshold stays inactive.  (`reactivate` is the update `beamStep` applies
in that situation.) -/
theorem c1_amended_reactivate_iff_below (active : List Bool) (probs : List ℚ)
    (m : ℚ) (i : ℕ) (j : ℕ) (hlen : probs.length = active.length)
    (hj : j < active.length) (hinact : active.getD j true = false) :
    ((reactivate active probs (m / (i : ℚ))).getD j false = true ↔
      probs.getD j 0 < m / (i : ℚ)) := by
  unfold reactivate
  rw [getD_zipWith (fun a p => a || decide (p < m / (i : ℚ))) active probs j true 0 false hj
    (by omega), hinact]
  simp

/-- C1 (witness): the amended reactivation rule applied at the concrete
state `active = [false, true]`, `probs = [-2, 3]`, with max selected
candidate score `-4` at step `i = 2`. -/
theorem c1_witness :
    ((reactivate [false, true] [(-2 : ℚ), 3] ((-4 : ℚ) / ((2 : ℕ) : ℚ))).getD 0 false = true ↔
      ([(-2 : ℚ), 3].getD 0 0 < (-4 : ℚ) / ((2 : ℕ) : ℚ))) :=
  c1_amended_reactivate_iff_below [false, true] [(-2 : ℚ), 3] (-4) 2 0 (by decide) (by decide)
    (by decide)

/-- C2 (counterexample): with the claim's vocabulary and scoring function,
`greedy_search` (here at `max_length = 8`) returns
`[<BOS>, a, b, <EOS>]` followed by `<BOS>` (id 1) in every remaining slot
— the path buffer is initialized with `torch.full(..., vocab.BOS)` — not
by `<PAD>` (id 0) as the claim states. -/
theorem c2_counterexample :
    greedySearch (abScoreOf ()) 1 2 8 = [1, 3, 4, 2, 1, 1, 1, 1] ∧
    greedySearch (abScoreOf ()) 1 2 8 ≠ [1, 3, 4, 2, 0, 0, 0, 0] :=
  ⟨rfl, by decide⟩

/-- Unfolding of one non-terminating `greedy_search` step. -/
theorem greedyLoop_go (score : List ℕ → List ℚ) (eos maxLength fuel i : ℕ) (path : List ℕ)
    (hi : i < maxLength) (ht : argmax (score (path.take i)) ≠ eos) :
    greedyLoop score eos maxLength (fuel+1) i path =
      greedyLoop score eos maxLength fuel (i+1) (path.set i (argmax (score (path.take i)))) := by
  simp [greedyLoop, hi, ht]

/-- Unfolding of the terminating `greedy_search` step (`EOS` chosen). -/
theorem greedyLoop_stop (score : List ℕ → List ℚ) (eos maxLength fuel i : ℕ) (path : List ℕ)
    (hi : i < maxLength) (ht : argmax (score (path.take i)) = eos) :
    greedyLoop score eos maxLength (fuel+1) i path = path.set i eos := by
  simp [greedyLoop, hi, ht]

/-- C2 (amended): with vocabulary `{<PAD>:0, <BOS>:1, <EOS>:2, a:3, b:4}`
and the deterministic scorer predicting `a`, then `b`, then `EOS`,
`greedy_search` on any source returns `[<BOS>, a, b, <EOS>]` followed by
`<BOS>` (not `<PAD>`) in every remaining position up to `max_length`. -/
theorem c2_amended {σ : Type} (src : σ) (L : ℕ) (hL : 4 ≤ L) :
    greedySearch (abScoreOf src) 1 2 L = [1, 3, 4, 2] ++ List.replicate (L - 4) 1 := by
  obtain ⟨k, rfl⟩ : ∃ k, L = k + 4 := ⟨L - 4, by omega⟩
  have a1 : argmax (abScoreOf src ((1 :: 1 :: 1 :: 1 :: List.replicate k (1 : ℕ)).take 1)) = 3 := rfl
  have a2 : argmax (abScoreOf src ((1 :: 3 :: 1 :: 1 :: List.replicate k (1 : ℕ)).take 2)) = 4 := rfl
  have a3 : argmax (abScoreOf src ((1 :: 3 :: 4 :: 1 :: List.replicate k (1 : ℕ)).take 3)) = 2 := rfl
  show greedyLoop (abScoreOf src) 2 (k + 4) (k + 4) 1 (List.replicate (k + 4) 1) =
    [1, 3, 4, 2] ++ List.replicate (k + 4 - 4) 1
  rw [show List.replicate (k + 4) (1 : ℕ) = 1 :: 1 :: 1 :: 1 :: List.replicate k 1 from rfl]
  rw [show k + 4 = (k + 3) + 1 from rfl]
  rw [greedyLoop_go (abScoreOf src) 2 (k + 3 + 1) (k + 3) 1 _ (by omega) (by rw [a1]; decide)]
  rw [a1]
  rw [show ((1 : ℕ) :: 1 :: 1 :: 1 :: List.replicate k 1).set 1 3 =
    1 :: 3 :: 1 :: 1 :: List.replicate k 1 from rfl]
  rw [show k + 3 = (k + 2) + 1 from rfl]
  rw [greedyLoop_go (abScoreOf src) 2 (k + 3 + 1) (k + 2) 2 _ (by omega) (by rw [a2]; decide)]
  rw [a2]
  rw [show ((1 : ℕ) :: 3 :: 1 :: 1 :: List.replicate k 1).set 2 4 =
    1 :: 3 :: 4 :: 1 :: List.replicate k 1 from rfl]
  rw [show k + 2 = (k + 1) + 1 from rfl]
  rw [greedyLoop_stop (abScoreOf src) 2 (k + 3 + 1) (k + 1) 3 _ (by omega) a3]
  rfl

/-- C2 (witness): the amended run at `max_length = 8` with a unit source. -/
theorem c2_witness :
    greedySearch (abScoreOf ()) 1 2 8 = [1, 3, 4, 2] ++ List.replicate (8 - 4) 1 :=
  c2_amended () 8 (by decide)

/-- The Batch of claim C6: one example whose recorded pairs are the single
lemma span `[2, 4)` with sense span `[10, 14)` (with a truthy
`ignore_index`, as produced by `batch_data`). -/
def bC6 : Batch := ⟨[[0]], [[0]], [([(2, 4)], [(10, 14)])], some 1⟩

/-- C6: on first access, the dictionary attention mask of `bC6` satisfies:
layer 0 is `0` at rows `[2, 4) ×` columns `[10, 14)`, `1` at all other
rows `×` columns `[10, 14)`, and `0` outside those columns; layer 1 is `1`
at rows `[10, 14) ×` all columns except `0` at rows `[10, 14) ×` columns
`[10, 14)`, and `0` at all other rows. -/
theorem c6_dict_mask_pattern : ∀ r c : ℕ,
    (Batch.dictMaskRead bC6).map (fun p => (p.1 0 0 r c, p.1 1 0 r c)) =
      .ok ((if 10 ≤ c ∧ c < 14 then if 2 ≤ r ∧ r < 4 then 0 else 1 else 0 : ℚ),
           (if 10 ≤ r ∧ r < 14 then if 10 ≤ c ∧ c < 14 then 0 else 1 else 0 : ℚ)) := by
  intro r c
  rw [show Batch.dictMaskRead bC6 =
    .ok (buildDictMask bC6.dictData, ⟨[[0]], [[0]], [], some 1⟩) from rfl]
  rw [show buildDictMask bC6.dictData =
    applyDictPair 0 (2, 4) (10, 14) zeroDictMask from rfl]
  simp only [Except.map, applyDictPair, zeroDictMask, Except.ok.injEq, Prod.mk.injEq,
    Nat.zero_ne_one, Nat.one_ne_zero, false_and, and_false, if_false, true_and]
  constructor
  · split_ifs <;> first | rfl | omega
  · split_ifs <;> first | rfl | omega

/-- C7: the per-example `(lemma_span, sense_span)` data of a `Batch` is a
one-shot iterator (`zip(lemmas, senses)`): on any `Batch` with a truthy
`ignore_index`, the first read of `dict_mask` yields the mask built from
the stored data and leaves the iterator exhausted, and a read on the
exhausted state yields the all-zero mask and again an exhausted state, so
every subsequent read is all-zero. -/
theorem c7_dict_mask_one_shot (b : Batch) (h : Batch.isFalsy b.ignoreIndex = false) :
    Batch.dictMaskRead b = .ok (buildDictMask b.dictData, { b with dictData := [] }) ∧
    Batch.dictMaskRead { b with dictData := [] } =
      .ok (zeroDictMask, { b with dictData := [] }) := by
  constructor
  · simp [Batch.dictMaskRead, h]
  · simp [Batch.dictMaskRead, h, buildDictMask, List.enum]

/-- A concrete batch with one recorded span pair and a truthy
`ignore_index`, for the C7 witness. -/
def bC7 : Batch := ⟨[[0]], [[0, 1]], [([(0, 1)], [(1, 2)])], some 2⟩

/-- C7 (witness): the one-shot behaviour at the concrete batch `bC7`. -/
theorem c7_witness :
    Batch.dictMaskRead bC7 = .ok (buildDictMask bC7.dictData, { bC7 with dictData := [] }) ∧
    Batch.dictMaskRead { bC7 with dictData := [] } =
      .ok (zeroDictMask, { bC7 with dictData := [] }) :=
  c7_dict_mask_one_shot bC7 rfl

/-- C10: on every `Batch` whose `ignore_index` is `0` (a plausible `<PAD>`
id), the falsy test `not self.ignore_index` disables all padding logic:
`src_mask` is `None`, `tgt_mask` is the pure causal mask with no padding
component, and `num_tokens` is the arithmetic *sum* of the target id
values from position 1 on, not a count of non-pad tokens. -/
theorem c10_ignore_index_zero_disables_padding (b : Batch) (h : b.ignoreIndex = some 0) :
    b.srcMask = none ∧
    b.tgtMask = [triuMask (b.tgtWidth - 1)] ∧
    b.numTokens = (b.tgtNums.map fun r => (r.drop 1).sum).sum := by
  refine ⟨?_, ?_, ?_⟩ <;>
    simp [Batch.srcMask, Batch.tgtMask, Batch.numTokens, h, Batch.isFalsy]

/-- A concrete batch with `ignore_index = 0`, for the C10 witness. -/
def bC10 : Batch := ⟨[[1, 2]], [[1, 3, 0, 2]], [], some 0⟩

/-- C10 (witness): the disabled padding logic at the concrete batch
`bC10`. -/
theorem c10_witness :
    bC10.srcMask = none ∧
    bC10.tgtMask = [triuMask (bC10.tgtWidth - 1)] ∧
    bC10.numTokens = (bC10.tgtNums.map fun r => (r.drop 1).sum).sum :=
  c10_ignore_index_zero_disables_padding bC10 rfl

/-- C3 (counterexample): on the single input line `"hello world"` (no tab
separator) `batch_data` raises `ValueError` — from the two-variable
unpacking of `line.split('\t')` — instead of skipping the line silently
and returning the empty batching of the remaining (zero) lines. -/
theorem c3_counterexample :
    batchData 10 cfg1 (fun _ => none) (fun _ => none) voc8 ["hello world"] =
        .error .valueError ∧
    batchData 10 cfg1 (fun _ => none) (fun _ => none) voc8 [] = .ok [] :=
  ⟨rfl, rfl⟩

/-- A line whose `split('\t')` does not have exactly two fields makes
`processLine` raise `ValueError` at the tuple unpacking. -/
theorem processLine_badSplit (cfg : Config) (freq : String → Option ℤ)
    (dict : String → Option (List String)) (line : String)
    (h : (pySplitTab line).length ≠ 2) :
    processLine cfg freq dict line = .error .valueError := by
  unfold processLine
  split
  · next srcLine tgtLine heq => exact absurd (by rw [heq]; rfl) h
  · rfl

/-- If any line of the input has a malformed tab split, the line loop of
`batch_data` raises (the first malformed line wins, so only existence of
an error is claimed). -/
theorem readExamples_err (cfg : Config) (freq : String → Option ℤ)
    (dict : String → Option (List String)) :
    ∀ (lines : List String) (acc : List Example) (line : String),
      line ∈ lines → (pySplitTab line).length ≠ 2 →
      ∃ e, readExamples cfg freq dict lines acc = .error e := by
  intro lines
  induction lines with
  | nil => intro acc line h; simp at h
  | cons l rest ih =>
    intro acc line hmem hbad
    rcases List.mem_cons.mp hmem with rfl | hmem2
    · exact ⟨.valueError, by simp [readExamples, processLine_badSplit cfg freq dict _ hbad]⟩
    · cases hpl : processLine cfg freq dict l with
      | error e => exact ⟨e, by simp [readExamples, hpl]⟩
      | ok o =>
        cases o with
        | none =>
          obtain ⟨e, he⟩ := ih acc line hmem2 hbad
          exact ⟨e, by simp [readExamples, hpl, he]⟩
        | some ex =>
          obtain ⟨e, he⟩ := ih (acc ++ [ex]) line hmem2 hbad
          exact ⟨e, by simp [readExamples, hpl, he]⟩

/-- C3 (amended): an input line of `batch_data` that lacks a tab separator
(more precisely, whose `split('\t')` does not yield exactly two fields) is
*not* skipped: it makes `batch_data` raise an exception (a `ValueError`
from tuple unpacking at that line, or an earlier error from a preceding
line), so batching does not continue.  Only lines that do split in two
but have an empty side are skipped silently. -/
theorem c3_amended (fuel : ℕ) (cfg : Config) (freq : String → Option ℤ)
    (dict : String → Option (List String)) (v : Vocab) (lines : List String)
    (line : String) (hmem : line ∈ lines) (hnotab : (pySplitTab line).length ≠ 2) :
    ∃ e, batchData fuel cfg freq dict v lines = .error e := by
  obtain ⟨e, he⟩ := readExamples_err cfg freq dict lines [] line hmem hnotab
  exact ⟨e, by simp [batchData, exBind, he]⟩

/-- C3 (witness): the amended behaviour at the concrete line
`"hello world"`. -/
theorem c3_witness :
    ∃ e, batchData 10 cfg1 (fun _ => none) (fun _ => none) voc8 ["hello world"] = .error e :=
  c3_amended 10 cfg1 (fun _ => none) (fun _ => none) voc8 ["hello world"] "hello world"
    (by simp) (by decide)

/-- C8 (counterexample): `'<EOS>'` is a word known to the vocabulary
`voc4`, but `denumberize(numberize(['<EOS>']))` is `[]`, not `['<EOS>']`:
`denumberize` trims from the first `EOS` id on. -/
theorem c8_counterexample :
    (voc4.numberize ["<EOS>"]).bind (fun ns => voc4.denumberize ns false) = .ok [] ∧
    (voc4.numberize ["<EOS>"]).bind (fun ns => voc4.denumberize ns false) ≠ .ok ["<EOS>"] :=
  ⟨rfl, by decide⟩

/-- A successful `dictGet` lookup comes from an entry of the association
list. -/
theorem dictGet_mem (l : List (String × ℕ)) (w : String) (n : ℕ)
    (h : dictGet l w = some n) : (w, n) ∈ l := by
  induction l with
  | nil => simp [dictGet] at h
  | cons p rest ih =>
    obtain ⟨k, v⟩ := p
    by_cases hk : k = w
    · subst hk
      simp [dictGet] at h
      simp [h]
    · simp [dictGet, hk] at h
      exact List.mem_cons_of_mem _ (ih h)

/-- The id map and the token list of a `Vocab` agree: every entry of
`word_to_num` points back to its own token in `num_to_word`.  This holds
for every vocabulary whose tokens are pairwise distinct (in particular the
ordinary file-loaded ones) and is the precondition for the round trip. -/
def Vocab.consistent (v : Vocab) : Prop :=
  ∀ p ∈ v.wordToNum, listGet? v.numToWord p.2 = some p.1

instance (v : Vocab) : Decidable v.consistent :=
  List.decidableBAll _ v.wordToNum

/-- On words that are all known, `numberize` succeeds with the looked-up
ids. -/
theorem numberize_known (v : Vocab) (words : List String)
    (h : ∀ w ∈ words, (dictGet v.wordToNum w).isSome) :
    v.numberize words = .ok (words.map fun w => (dictGet v.wordToNum w).getD 0) := by
  induction words with
  | nil => rfl
  | cons w ws ih =>
    obtain ⟨n, hn⟩ := Option.isSome_iff_exists.mp (h w (List.mem_cons_self w ws))
    have ihs : v.numberize ws = .ok (ws.map fun w => (dictGet v.wordToNum w).getD 0) :=
      ih fun w hw => h w (List.mem_cons_of_mem _ hw)
    simp only [Vocab.numberize, exMapM, hn] at ihs ⊢
    rw [ihs]
    simp [hn]

/-- `findIdx0` misses an element that is not in the list. -/
theorem findIdx0_eq_none (l : List ℕ) (x : ℕ) (h : ∀ y ∈ l, y ≠ x) :
    findIdx0 l x = none := by
  induction l with
  | nil => rfl
  | cons y ys ih =>
    have hy : y ≠ x := h y (List.mem_cons_self y ys)
    simp only [findIdx0, if_neg hy]
    rw [ih fun z hz => h z (List.mem_cons_of_mem _ hz)]
    rfl

/-- Mapping the looked-up ids of known words back through `num_to_word`
recovers the words, on a consistent vocabulary. -/
theorem denum_map (v : Vocab) (words : List String) (hcons : v.consistent)
    (h : ∀ w ∈ words, (dictGet v.wordToNum w).isSome) :
    exMapM (fun n =>
        match listGet? v.numToWord n with
        | some w => .ok w
        | none => .error .indexError)
      (words.map fun w => (dictGet v.wordToNum w).getD 0) = .ok words := by
  induction words with
  | nil => rfl
  | cons w ws ih =>
    obtain ⟨n, hn⟩ := Option.isSome_iff_exists.mp (h w (List.mem_cons_self w ws))
    have hback : listGet? v.numToWord n = some w :=
      hcons (w, n) (dictGet_mem v.wordToNum w n hn)
    have ihs := ih fun w hw => h w (List.mem_cons_of_mem _ hw)
    simp only [List.map_cons, exMapM, hn, Option.getD_some, hback] at ihs ⊢
    rw [ihs]

/-- C8 (amended): for every consistent vocabulary containing `'<BOS>'` and
`'<EOS>'`, and every token sequence built solely from known words *none of
which is `'<BOS>'` or `'<EOS>'*, the round trip holds:
`denumberize(numberize(words)) = words`.  (As stated, the claim fails on
sequences containing the known control words `'<BOS>'`/`'<EOS>'`, which
`denumberize` trims: see the counterexample.) -/
theorem c8_amended (v : Vocab) (words : List String) (hcons : v.consistent)
    (hbos : (dictGet v.wordToNum "<BOS>").isSome)
    (heos : (dictGet v.wordToNum "<EOS>").isSome)
    (hknown : ∀ w ∈ words, (dictGet v.wordToNum w).isSome)
    (hctrl : ∀ w ∈ words, w ≠ "<BOS>" ∧ w ≠ "<EOS>") :
    (v.numberize words).bind (fun ns => v.denumberize ns false) = .ok words := by
  obtain ⟨b, hb⟩ := Option.isSome_iff_exists.mp hbos
  obtain ⟨e2, he2⟩ := Option.isSome_iff_exists.mp heos
  rw [numberize_known v words hknown]
  have hid : ∀ s : String, (dictGet v.wordToNum s).isSome = true → s ∈ words →
      ∀ t : String, ∀ m : ℕ, dictGet v.wordToNum t = some m →
      (dictGet v.wordToNum s).getD 0 = m → s = t := by
    intro s hs hsw t m hm heq
    obtain ⟨n, hn⟩ := Option.isSome_iff_exists.mp hs
    rw [hn] at heq
    simp at heq
    subst heq
    have h1 : listGet? v.numToWord n = some s := hcons (s, n) (dictGet_mem _ _ _ hn)
    have h2 : listGet? v.numToWord n = some t := hcons (t, n) (dictGet_mem _ _ _ hm)
    rw [h1] at h2
    simpa using h2
  have hbne : ∀ n ∈ words.map fun w => (dictGet v.wordToNum w).getD 0, n ≠ b := by
    intro n hn
    obtain ⟨w, hw, rfl⟩ := List.mem_map.mp hn
    intro hcontra
    exact (hctrl w hw).1 (hid w (hknown w hw) hw "<BOS>" b hb hcontra)
  have hene : ∀ n ∈ words.map fun w => (dictGet v.wordToNum w).getD 0, n ≠ e2 := by
    intro n hn
    obtain ⟨w, hw, rfl⟩ := List.mem_map.mp hn
    intro hcontra
    exact (hctrl w hw).2 (hid w (hknown w hw) hw "<EOS>" e2 he2 hcontra)
  show Vocab.denumberize v _ false = _
  unfold Vocab.denumberize
  simp only [Bool.false_eq_true, if_false, Vocab.BOS, Vocab.EOS, hb, he2,
    findIdx0_eq_none _ b hbne, findIdx0_eq_none _ e2 hene]
  simp only [List.drop_zero, List.length_map, Nat.sub_zero]
  rw [show (words.map fun w => (dictGet v.wordToNum w).getD 0).take words.length =
      words.map fun w => (dictGet v.wordToNum w).getD 0 by
    rw [← List.length_map words fun w => (dictGet v.wordToNum w).getD 0, List.take_length]]
  exact denum_map v words hcons hknown

/-- C8 (witness): the round trip on the consistent vocabulary `voc4` and
the known, control-free word list `["a"]`. -/
theorem c8_witness :
    (voc4.numberize ["a"]).bind (fun ns => voc4.denumberize ns false) = .ok ["a"] :=
  c8_amended voc4 ["a"] (by decide) (by decide) (by decide) (by decide) (by decide)

/-- `nn.functional.pad(xs, (0, L - len(xs)))` always has length exactly
`L`: appending when the sequence is short, truncating when it is long. -/
theorem length_padPy (xs : List ℕ) (L : ℕ) (v : ℕ) :
    (padPy xs ((L : ℤ) - xs.length) v).length = L := by
  unfold padPy
  split
  · next h =>
    have hle : xs.length ≤ L := by omega
    simp only [List.length_append, List.length_replicate]
    omega
  · next h =>
    have hlt : L < xs.length := by omega
    simp only [List.length_take]
    have : (-(((L : ℤ)) - xs.length)).toNat = xs.length - L := by omega
    rw [this]
    omega

/-- A successfully padded row has exactly the requested width. -/
theorem padRow_len (v : Vocab) (width : ℕ) (words : List String) (ns : List ℕ)
    (h : padRow v width words = .ok ns) : ns.length = width := by
  unfold padRow at h
  split at h
  · exact absurd h (by simp)
  · split at h
    · exact absurd h (by simp)
    · next p hp =>
      cases h
      exact length_padPy _ width _

/-- Every element of a successful `exMapM` image satisfies any property
enjoyed by all outputs of `f`. -/
theorem exMapM_ok_forall {α β : Type} (f : α → Except PyErr β) {Q : β → Prop}
    (hf : ∀ x y, f x = .ok y → Q y) :
    ∀ (xs : List α) (ys : List β), exMapM f xs = .ok ys → ∀ y ∈ ys, Q y := by
  intro xs
  induction xs with
  | nil =>
    intro ys h y hy
    simp only [exMapM] at h
    cases h
    simp at hy
  | cons x xs ih =>
    intro ys h y hy
    simp only [exMapM] at h
    split at h
    · exact absurd h (by simp)
    · next y0 hy0 =>
      split at h
      · exact absurd h (by simp)
      · next ys0 hys0 =>
        cases h
        rcases List.mem_cons.mp hy with rfl | hmem
        · exact hf x y hy0
        · exact ih ys0 hys0 y hmem

/-- A successfully materialized bucket is uniformly padded: every source
row has length `ceil8 mS` and every target row has length `ceil8 mT`. -/
theorem mkBucket_ok (v : Vocab) (slice : List Example) (mS mT : ℕ) (b : Batch)
    (h : mkBucket v slice mS mT = .ok b) :
    (∀ r ∈ b.srcNums, r.length = ceil8 mS) ∧ (∀ r ∈ b.tgtNums, r.length = ceil8 mT) := by
  unfold mkBucket at h
  obtain ⟨srcRows, hsrc, h⟩ := exBind_ok h
  obtain ⟨tgtRows, htgt, h⟩ := exBind_ok h
  obtain ⟨d, hd, h⟩ := exBind_ok h
  obtain ⟨unk, hunk, h⟩ := exBind_ok h
  obtain ⟨pad, hpad, h⟩ := exBind_ok h
  cases h
  constructor
  · exact exMapM_ok_forall _
      (fun ex r hr => padRow_len v (ceil8 mS) ex.src r hr) slice srcRows hsrc
  · intro r hr
    obtain ⟨row, hrow, rfl⟩ := List.mem_map.mp hr
    rw [List.length_map]
    exact exMapM_ok_forall _
      (fun ex r hr => padRow_len v (ceil8 mT) ex.tgt r hr) slice tgtRows htgt row hrow

/-- The uniform multiple-of-8 padding invariant of one batch. -/
def paddedTo8 (b : Batch) : Prop :=
  ∃ Ls Lt, Ls % 8 = 0 ∧ Lt % 8 = 0 ∧
    (∀ r ∈ b.srcNums, r.length = Ls) ∧ (∀ r ∈ b.tgtNums, r.length = Lt)

/-- Every batch the bucketing loop appends satisfies `paddedTo8`. -/
theorem bucketLoop_ok (cfg : Config) (v : Vocab) (unbatched : List Example)
    (innerFuel : ℕ) :
    ∀ (fuel i bsz : ℕ) (acc out : List Batch),
      (∀ b ∈ acc, paddedTo8 b) →
      bucketLoop cfg v unbatched innerFuel fuel i bsz acc = .ok out →
      ∀ b ∈ out, paddedTo8 b := by
  intro fuel
  induction fuel with
  | zero =>
    intro i bsz acc out hacc h
    exact absurd h (by simp [bucketLoop])
  | succ fuel ih =>
    intro i bsz acc out hacc h
    simp only [bucketLoop] at h
    split at h
    · obtain ⟨szs, hsz, h⟩ := exBind_ok h
      obtain ⟨b2, hmk, h⟩ := exBind_ok h
      refine ih _ _ _ out ?_ h
      intro b hb
      rcases List.mem_append.mp hb with hb | hb
      · exact hacc b hb
      · rw [List.mem_singleton.mp hb]
        obtain ⟨hs, ht⟩ := mkBucket_ok v _ szs.2.1 szs.2.2 b2 hmk
        exact ⟨ceil8 szs.2.1, ceil8 szs.2.2, Nat.mul_mod_left _ 8, Nat.mul_mod_left _ 8, hs, ht⟩
    · cases h
      exact hacc

/-- C9: for every batch produced by a successful `batch_data` run, the
padded source length and the padded target length are each multiples of 8,
and every sequence in the batch is padded to exactly those shared
lengths. -/
theorem c9_batches_padded_to_8 (fuel : ℕ) (cfg : Config) (freq : String → Option ℤ)
    (dict : String → Option (List String)) (v : Vocab) (lines : List String)
    (bs : List Batch) (h : batchData fuel cfg freq dict v lines = .ok bs) :
    ∀ b ∈ bs, ∃ Ls Lt, Ls % 8 = 0 ∧ Lt % 8 = 0 ∧
      (∀ r ∈ b.srcNums, r.length = Ls) ∧ (∀ r ∈ b.tgtNums, r.length = Lt) := by
  unfold batchData at h
  obtain ⟨exs, hexs, h⟩ := exBind_ok h
  exact bucketLoop_ok cfg v (sortExamples exs) fuel fuel 0 0 [] bs (by simp) h

/-- The batch that `batch_data` produces from the single line `"a\tb"`
with vocabulary `voc8` and configuration `cfg1`. -/
def batchW : Batch :=
  ⟨[[1, 4, 2, 0, 0, 0, 0, 0]], [[1, 5, 2, 0, 0, 0, 0, 0]], [([], [])], some 0⟩

/-- C9 (witness): the padding invariant holds on the concrete batch built
by `batch_data` from the line `"a\tb"` (padded lengths 8 and 8). -/
theorem c9_witness :
    ∃ Ls Lt, Ls % 8 = 0 ∧ Lt % 8 = 0 ∧
      (∀ r ∈ batchW.srcNums, r.length = Ls) ∧ (∀ r ∈ batchW.tgtNums, r.length = Lt) :=
  c9_batches_padded_to_8 10 cfg1 (fun _ => none) (fun _ => none) voc8 ["a\tb"] [batchW]
    rfl batchW (by simp)

end DictAttention

